/-
Verification of the larsim photon-library binary file format against its
natural-language specification.

The development shallowly embeds the C++ sources:
 * larsim/PhotonPropagation/FileFormats/FileBlocks.h / .cxx / .tcc
   (namespace util::fblock: MagicKey, BlockInfo, Version, FileBlock and the
   typed block variants Bookmark, String, Number<T>),
 * larsim/PhotonPropagation/FileFormats/BinaryBlockFile.h / .cxx / .tcc
   (the block file manager),
 * larsim/PhotonPropagation/PhotonLibraryBinaryFileFormat.h / .cxx
   (readHeader, writeHeader/writeData/writeFooter/writeFile, fixHeader),
 * larsim/PhotonPropagation/VoxelizedChannelData.h (the random-access reader),
 * larsim/PhotonPropagation/BinaryFilePhotonLibrary.cxx (bounds-checked lookup).

Bytes are naturals (written bytes are < 256); byte streams are a remaining
byte list plus the absolute cursor offset, mirroring std::fstream: a short
read fails after consuming what is available, a relative seek always
advances the cursor.  Multi-byte scalars are stored in host byte order,
modelled as little-endian; `double` fields travel as their 64-bit patterns.
Fallible operations return an explicit success flag (the C++ `bool read()`
layer) or `Except` (the throwing BinaryBlockFile layer).
-/
import Mathlib

set_option maxHeartbeats 1000000
set_option maxRecDepth 100000

namespace fblock

/-- util::fblock::WordSize: the 4-byte alignment quantum. -/
def WordSize : Nat := 4

/-- Little-endian byte encoding of a value into `n` bytes (the value is
taken modulo 256^n, as a store through a fixed-width type does). -/
def natToBytes : Nat → Nat → List Nat
  | 0, _ => []
  | n + 1, v => v % 256 :: natToBytes n (v / 256)

/-- Little-endian byte decoding (reinterpreting a byte buffer as an
unsigned integer of the buffer's width). -/
def bytesToNat : List Nat → Nat
  | [] => 0
  | b :: bs => b + 256 * bytesToNat bs

/-- util::fblock::MagicKey: a four-byte block tag. -/
structure MagicKey where
  b0 : Nat
  b1 : Nat
  b2 : Nat
  b3 : Nat
deriving DecidableEq, Repr

/-- MagicKey::key(): the four stored bytes in order. -/
def MagicKey.toBytes (k : MagicKey) : List Nat := [k.b0, k.b1, k.b2, k.b3]

/-- MagicKey(string_view): copy the first min(4, length) bytes of the
source, fill the remainder with NUL. -/
def MagicKey.ofBytes (s : List Nat) : MagicKey :=
  let filled := s.take 4 ++ List.replicate (4 - s.length) 0
  { b0 := filled.getD 0 0, b1 := filled.getD 1 0
    b2 := filled.getD 2 0, b3 := filled.getD 3 0 }

/-- MagicKey built from the bytes of a character string. -/
def MagicKey.ofString (s : String) : MagicKey :=
  MagicKey.ofBytes (s.toList.map Char.toNat)

/-- util::fblock::NullKey: the all-NUL key. -/
def NullKey : MagicKey := ⟨0, 0, 0, 0⟩

/-- util::fblock::operator==(MagicKey, MagicKey): byte-wise comparison of
all four stored bytes. -/
def MagicKey.keyEq (a b : MagicKey) : Bool :=
  (a.b0 == b.b0) && (a.b1 == b.b1) && (a.b2 == b.b2) && (a.b3 == b.b3)

/-- The number of consecutive NUL bytes at the end of a list; this is what
the backward scan in MagicKey::operator std::string_view() counts. -/
def trailingNuls (l : List Nat) : Nat :=
  (l.reverse.takeWhile (fun b => b == 0)).length

/-- MagicKey::operator std::string_view(): the key bytes, excluding the
trailing run of NUL bytes. -/
def MagicKey.toText (k : MagicKey) : List Nat :=
  k.toBytes.take (4 - trailingNuls k.toBytes)

/-- A list with its trailing zero bytes removed (the specification's
description of the text rendering of a key). -/
def dropTrailingZeros (l : List Nat) : List Nat :=
  (l.reverse.dropWhile (fun b => b == 0)).reverse

/-- util::fblock::BlockInfo: block header of a key and a payload size. -/
structure BlockInfo where
  key : MagicKey
  size : Nat
deriving DecidableEq, Repr

/-- util::fblock::NullBlockInfo: null key, no payload. -/
def NullBlockInfo : BlockInfo := ⟨NullKey, 0⟩

/-- BlockInfo::alignedSize(size): `size` rounded up to a multiple of the
word size. -/
def alignedSize (size : Nat) : Nat :=
  let excess := size % WordSize
  if excess = 0 then size else size - excess + WordSize

/-- BlockInfo::paddingSize(size): bytes needed to fill the aligned block. -/
def paddingSize (size : Nat) : Nat := alignedSize size - size

/-- BlockInfo::sizeAs<T>(): payload size as a count of elements of a type
of `tsize` bytes (integer division). -/
def BlockInfo.sizeAs (info : BlockInfo) (tsize : Nat) : Nat := info.size / tsize

/-- On-disk encoding of a block header: four key bytes, then the 64-bit
payload size. -/
def BlockInfo.bytes (info : BlockInfo) : List Nat :=
  info.key.toBytes ++ natToBytes 8 info.size

/-- A seekable input byte stream: the bytes not yet consumed paired with
the absolute cursor position. -/
structure ByteStream where
  rem : List Nat
  off : Nat
deriving DecidableEq, Repr

/-- istream::read of `n` bytes: on success the bytes are returned and the
cursor advances by `n`; a short read consumes what is available and fails. -/
def readData (s : ByteStream) (n : Nat) : List Nat × ByteStream × Bool :=
  if n ≤ s.rem.length then (s.rem.take n, ⟨s.rem.drop n, s.off + n⟩, true)
  else (s.rem, ⟨[], s.off + s.rem.length⟩, false)

/-- details::wasteData: seekg(n, cur). Relative seeks always succeed and
advance the cursor by exactly `n` (a position past the end only makes the
following reads fail). -/
def wasteData (s : ByteStream) (n : Nat) : ByteStream :=
  ⟨s.rem.drop n, s.off + n⟩

/-- MagicKey::read: reads four bytes into the key; when the read is short
the available bytes overwrite the corresponding prefix of the old key. -/
def MagicKey.read (k : MagicKey) (s : ByteStream) :
    MagicKey × ByteStream × Bool :=
  match readData s 4 with
  | (bs, s', true) => (MagicKey.ofBytes bs, s', true)
  | (bs, s', false) => (MagicKey.ofBytes (bs ++ k.toBytes.drop bs.length), s', false)

/-- BlockInfo::read: key then 64-bit size; on any failure the object is
reset to NullBlockInfo. -/
def BlockInfo.read (info : BlockInfo) (s : ByteStream) :
    BlockInfo × ByteStream × Bool :=
  match info.key.read s with
  | (k, s1, true) =>
    match readData s1 8 with
    | (bs, s2, true) => (⟨k, bytesToNat bs⟩, s2, true)
    | (_, s2, false) => (NullBlockInfo, s2, false)
  | (_, s1, false) => (NullBlockInfo, s1, false)

/-- BlockInfo::skipPayload: advance by the aligned payload size. -/
def BlockInfo.skipPayload (info : BlockInfo) (s : ByteStream) : ByteStream :=
  wasteData s (alignedSize info.size)

/-- util::fblock::Version: a key and a single version word. -/
structure Version where
  key : MagicKey
  version : Nat
deriving DecidableEq, Repr

/-- Version(): default-constructed with key "VERS" and version 0. -/
def defaultVersionBlock : Version := ⟨MagicKey.ofString "VERS", 0⟩

/-- Version::read: key then one 32-bit word; on any failure the object is
restored to the default-constructed state. -/
def Version.read (v : Version) (s : ByteStream) :
    Version × ByteStream × Bool :=
  match v.key.read s with
  | (k, s1, true) =>
    match readData s1 4 with
    | (bs, s2, true) => (⟨k, bytesToNat bs⟩, s2, true)
    | (_, s2, false) => (defaultVersionBlock, s2, false)
  | (_, s1, false) => (defaultVersionBlock, s1, false)

/-- Version::write: four key bytes and the 32-bit version word. -/
def Version.bytes (v : Version) : List Nat :=
  v.key.toBytes ++ natToBytes 4 v.version

/-- util::fblock::FileBlock: a block header together with its payload. -/
structure FileBlock where
  header : BlockInfo
  payload : List Nat
deriving DecidableEq, Repr

/-- FileBlock(): default-constructed null block. -/
def nullFileBlock : FileBlock := ⟨NullBlockInfo, []⟩

/-- FileBlock::allocate: resize the payload buffer to the header size
(vector::resize semantics: truncate, or extend with zero bytes). -/
def FileBlock.allocate (b : FileBlock) : FileBlock :=
  ⟨b.header,
   b.payload.take b.header.size
     ++ List.replicate (b.header.size - b.payload.length) 0⟩

/-- FileBlock::readPayload: allocate, read `size` bytes, then skip the
padding.  On a short read the payload keeps the allocated length, with the
available bytes in front, and the padding is not skipped. -/
def FileBlock.readPayload (b : FileBlock) (s : ByteStream) :
    FileBlock × ByteStream × Bool :=
  let ba := b.allocate
  match readData s ba.header.size with
  | (bs, s1, true) =>
      (⟨ba.header, bs⟩, wasteData s1 (paddingSize ba.header.size), true)
  | (bs, s1, false) => (⟨ba.header, bs ++ ba.payload.drop bs.length⟩, s1, false)

/-- FileBlock::read: header then payload; when the header read fails the
object becomes the null block (the header was reset by BlockInfo::read and
the payload is cleared). -/
def FileBlock.read (b : FileBlock) (s : ByteStream) :
    FileBlock × ByteStream × Bool :=
  match b.header.read s with
  | (hdr, s1, true) => FileBlock.readPayload ⟨hdr, b.payload⟩ s1
  | (hdr, s1, false) => (⟨hdr, []⟩, s1, false)

/-- FileBlock::write: header bytes, payload bytes, NUL padding up to the
word boundary. -/
def FileBlock.bytes (b : FileBlock) : List Nat :=
  b.header.bytes ++ b.payload ++ List.replicate (paddingSize b.header.size) 0

/-- util::fblock::Bookmark(key): a block with an empty payload. -/
def Bookmark (key : MagicKey) : FileBlock := ⟨⟨key, 0⟩, []⟩

/-- util::fblock::String(key, s): the size is the string length and the
payload holds the raw bytes (no terminator). -/
def StringBlock (key : MagicKey) (s : List Nat) : FileBlock :=
  ⟨⟨key, s.length⟩, s⟩

/-- String::str(): exactly the `size` payload bytes (interior and trailing
NULs included). -/
def FileBlock.str (b : FileBlock) : List Nat := b.payload.take b.header.size

/-- A C++ scalar type for Number<T>: byte size, signedness, and whether it
is an integral type. -/
structure CScalar where
  size : Nat
  signed : Bool
  integral : Bool
deriving DecidableEq, Repr

/-- sizeof(Number<T>::StoredType_t): integral types narrower than a word
are mapped to the word-sized integer of the same signedness, every other
type is stored as itself. -/
def storedSize (T : CScalar) : Nat :=
  if T.size < WordSize ∧ T.integral = true then WordSize else T.size

/-- Little-endian two's-complement bytes of an integer in `n` bytes. -/
def intToBytes (n : Nat) (v : Int) : List Nat :=
  natToBytes n (v % ((256 : Nat) ^ n : Nat)).toNat

/-- Number<T>::Number(key, value): the header size is ValueSize, that is
sizeof(T); set() converts the value to StoredType_t and setPayload copies
the first fPayload.size() = sizeof(T) bytes of it into the payload. -/
def NumberBlock (T : CScalar) (key : MagicKey) (v : Int) : FileBlock :=
  ⟨⟨key, T.size⟩, (intToBytes (storedSize T) v).take T.size⟩

/-- Number<T>::value() for unsigned storage: reinterpret the first
`n = sizeof(StoredType_t)` payload bytes. -/
def FileBlock.numberValueU (b : FileBlock) (n : Nat) : Nat :=
  bytesToNat (b.payload.take n)

/-- unsigned int. -/
def uint32 : CScalar := ⟨4, false, true⟩

/-- unsigned short: a 2-byte integral type, narrower than a word. -/
def uint16 : CScalar := ⟨2, false, true⟩

/-- double (stored and read back as its 64-bit pattern). -/
def float64 : CScalar := ⟨8, false, false⟩

/-!  The BinaryBlockFile layer.  The managed std::fstream has its exception
mask set, so every failed primitive read surfaces as an exception; this is
modelled by `Except`.  readBlock<Block> default-constructs the block, calls
Block::read and throws when it fails; with an expected key, keyCheck then
throws on a key mismatch. -/

/-- BinaryBlockFile::readBlock<Block>() for payload-carrying blocks. -/
def readBlockAny (s : ByteStream) : Except String (FileBlock × ByteStream) :=
  match FileBlock.read nullFileBlock s with
  | (b, s', true) => .ok (b, s')
  | (_, _, false) => .error "Failed to read block"

/-- BinaryBlockFile::readBlock<Block>(expectedKey): read then keyCheck.
Bookmark, String and Number blocks all inherit FileBlock::read, so this
single reader serves every payload-carrying typed variant. -/
def readBlockKeyed (key : MagicKey) (s : ByteStream) :
    Except String (FileBlock × ByteStream) := do
  let (b, s') ← readBlockAny s
  if MagicKey.keyEq b.header.key key then pure (b, s')
  else .error "block has unexpected key"

/-- BinaryBlockFile::readVersion(expectedKey). -/
def readVersionKeyed (key : MagicKey) (s : ByteStream) :
    Except String (Version × ByteStream) :=
  match Version.read defaultVersionBlock s with
  | (v, s', true) =>
      if MagicKey.keyEq v.key key then .ok (v, s')
      else .error "version block has unexpected key"
  | (_, _, false) => .error "Failed to read version block"

/-- BinaryBlockFile::readBlockHeader(expectedKey): readBlock<BlockInfo>,
consuming only the 12 header bytes. -/
def readBlockHeaderKeyed (key : MagicKey) (s : ByteStream) :
    Except String (BlockInfo × ByteStream) :=
  match BlockInfo.read NullBlockInfo s with
  | (i, s', true) =>
      if MagicKey.keyEq i.key key then .ok (i, s')
      else .error "block header has unexpected key"
  | (_, _, false) => .error "Failed to read block header"

end fblock

namespace photlib

open fblock

/-- PhotonLibraryBinaryFileFormat::DefaultFormatVersion: the all-ones
placeholder (std::numeric_limits<unsigned int>::max()). -/
def DefaultFormatVersion : Nat := 4294967295

/-- PhotonLibraryBinaryFileFormat::UndefinedFormatVersion. -/
def UndefinedFormatVersion : Nat := 0

/-- PhotonLibraryBinaryFileFormat::LatestFormatVersion. -/
def LatestFormatVersion : Nat := 1

/-- HeaderSettings_t::AxisSpecs_t.  The three double fields are carried as
their IEEE-754 binary64 bit patterns. -/
structure AxisSpecs where
  nSteps : Nat
  lower : Nat
  upper : Nat
  step : Nat
deriving DecidableEq, Repr

/-- HeaderSettings_t.  The axes array axes[0..2] is spelled out as the x,
y, z fields; the configuration string is its byte list. -/
structure HeaderSettings where
  version : Nat
  configuration : List Nat
  nEntries : Nat
  nChannels : Nat
  nVoxels : Nat
  axisX : AxisSpecs
  axisY : AxisSpecs
  axisZ : AxisSpecs
deriving DecidableEq, Repr

/-- Exact value of a finite IEEE-754 binary64 bit pattern, scaled by
2^1074 (the smallest positive subnormal becomes 1); on this scale every
finite double is an integer, so the arithmetic below is exact. -/
def doubleScaled (bits : Nat) : Int :=
  let sign : Nat := bits / 2 ^ 63 % 2
  let expo : Nat := bits / 2 ^ 52 % 2 ^ 11
  let frac : Nat := bits % 2 ^ 52
  let mag : Nat := if expo = 0 then frac else (2 ^ 52 + frac) * 2 ^ (expo - 1)
  if sign = 1 then -(mag : Int) else (mag : Int)

/-- Whether a binary64 bit pattern is finite (exponent field not all-ones). -/
def doubleIsFinite (bits : Nat) : Bool :=
  decide (bits / 2 ^ 52 % 2 ^ 11 ≠ 2047)

/-- Absolute value, kept as a plain conditional so that it evaluates. -/
def absInt (v : Int) : Int := if v < 0 then -v else v

/-- Modelled from the spec: the axis upper-bound consistency test used by
fixHeader.  The C++ code delegates to lar::util::RealComparisons{1e-3}
(from larcorealg, which is outside this repository) applied to double
values; per the specification the test accepts when `upper` and
`lower + step * nSteps` agree within a relative tolerance of 10^-3.
Exact arithmetic on the common 2^1074 scale stands in for double
arithmetic (the tolerance test is scale-invariant), and non-finite
operands fail the comparison, as any comparison with NaN does. -/
def axisConsistent (a : AxisSpecs) : Bool :=
  doubleIsFinite a.lower && doubleIsFinite a.upper && doubleIsFinite a.step &&
  (let expected : Int :=
    doubleScaled a.lower + doubleScaled a.step * (a.nSteps : Int)
   decide (absInt (doubleScaled a.upper - expected) * 1000 ≤ absInt expected))

/-- 2^32: the modulus of `unsigned int` arithmetic. -/
def U32 : Nat := 4294967296

/-- PhotonLibraryBinaryFileFormat::fixHeader(): substitute the default
version placeholder, check each axis while accumulating the voxel count in
`unsigned int` arithmetic, then check the voxel count and entry count. -/
def fixHeader (h : HeaderSettings) : Except String HeaderSettings :=
  let h :=
    if h.version = DefaultFormatVersion then
      { h with version := LatestFormatVersion } else h
  let n1 := 1 * h.axisX.nSteps % U32
  if axisConsistent h.axisX = false then .error "fixHeader: inconsistent x axis" else
  let n2 := n1 * h.axisY.nSteps % U32
  if axisConsistent h.axisY = false then .error "fixHeader: inconsistent y axis" else
  let n3 := n2 * h.axisZ.nSteps % U32
  if axisConsistent h.axisZ = false then .error "fixHeader: inconsistent z axis" else
  if n3 ≠ h.nVoxels then .error "fixHeader: voxel count mismatch" else
  if h.nVoxels * h.nChannels % U32 ≠ h.nEntries then
    .error "fixHeader: entries count mismatch"
  else .ok h

/-- The readHeader loop body for one axis: AXI_ bookmark, NBO_ count,
MIN_, MAX_, STE_ doubles, END_ bookmark. -/
def readAxis (kA kN kMin kMax kS kE : MagicKey) (s : ByteStream) :
    Except String (AxisSpecs × ByteStream) := do
  let (_, s1) ← readBlockKeyed kA s
  let (nb, s2) ← readBlockKeyed kN s1
  let (lo, s3) ← readBlockKeyed kMin s2
  let (up, s4) ← readBlockKeyed kMax s3
  let (st, s5) ← readBlockKeyed kS s4
  let (_, s6) ← readBlockKeyed kE s5
  pure (⟨nb.numberValueU 4, lo.numberValueU 8, up.numberValueU 8,
         st.numberValueU 8⟩, s6)

/-- PhotonLibraryBinaryFileFormat::readHeader() over the bytes of the
file: the fixed block sequence of format version 1, the data-size check
against NTRY, the recording of the data offset, the payload skip, and the
final DONE bookmark.  Returns the parsed header and the data offset. -/
def readHeader (data : List Nat) :
    Except String (HeaderSettings × Nat) := do
  let s0 : ByteStream := ⟨data, 0⟩
  let (vb, s1) ← readVersionKeyed (MagicKey.ofString "PLIB") s0
  if vb.version = 0 then .error "unsupported version 0" else
  if LatestFormatVersion < vb.version then .error "version not supported" else do
  let (cfg, s2) ← readBlockKeyed (MagicKey.ofString "CNFG") s1
  let (ntry, s3) ← readBlockKeyed (MagicKey.ofString "NTRY") s2
  let (nchn, s4) ← readBlockKeyed (MagicKey.ofString "NCHN") s3
  let (nvxl, s5) ← readBlockKeyed (MagicKey.ofString "NVXL") s4
  let (ax, s6) ← readAxis (MagicKey.ofString "AXIX") (MagicKey.ofString "NBOX")
    (MagicKey.ofString "MINX") (MagicKey.ofString "MAXX")
    (MagicKey.ofString "STEX") (MagicKey.ofString "ENDX") s5
  let (ay, s7) ← readAxis (MagicKey.ofString "AXIY") (MagicKey.ofString "NBOY")
    (MagicKey.ofString "MINY") (MagicKey.ofString "MAXY")
    (MagicKey.ofString "STEY") (MagicKey.ofString "ENDY") s6
  let (az, s8) ← readAxis (MagicKey.ofString "AXIZ") (MagicKey.ofString "NBOZ")
    (MagicKey.ofString "MINZ") (MagicKey.ofString "MAXZ")
    (MagicKey.ofString "STEZ") (MagicKey.ofString "ENDZ") s7
  let (dataBlockInfo, s9) ← readBlockHeaderKeyed (MagicKey.ofString "PHVS") s8
  if dataBlockInfo.sizeAs 4 ≠ ntry.numberValueU 4 then
    .error "visibility data size mismatch"
  else do
    let dataOffset := s9.off
    let s10 := BlockInfo.skipPayload dataBlockInfo s9
    let (_, _s11) ← readBlockKeyed (MagicKey.ofString "DONE") s10
    pure (⟨vb.version, cfg.str, ntry.numberValueU 4, nchn.numberValueU 4,
           nvxl.numberValueU 4, ax, ay, az⟩, dataOffset)

/-- writeHeader(destFile): one axis sub-sequence of blocks. -/
def axisBlockBytes (kA kN kMin kMax kS kE : MagicKey) (a : AxisSpecs) :
    List Nat :=
  (Bookmark kA).bytes ++
  (NumberBlock uint32 kN a.nSteps).bytes ++
  (NumberBlock float64 kMin a.lower).bytes ++
  (NumberBlock float64 kMax a.upper).bytes ++
  (NumberBlock float64 kS a.step).bytes ++
  (Bookmark kE).bytes

/-- writeHeader(destFile): the bytes emitted for the header blocks. -/
def writeHeaderBytes (h : HeaderSettings) : List Nat :=
  Version.bytes ⟨MagicKey.ofString "PLIB", h.version⟩ ++
  (StringBlock (MagicKey.ofString "CNFG") h.configuration).bytes ++
  (NumberBlock uint32 (MagicKey.ofString "NTRY") h.nEntries).bytes ++
  (NumberBlock uint32 (MagicKey.ofString "NCHN") h.nChannels).bytes ++
  (NumberBlock uint32 (MagicKey.ofString "NVXL") h.nVoxels).bytes ++
  axisBlockBytes (MagicKey.ofString "AXIX") (MagicKey.ofString "NBOX")
    (MagicKey.ofString "MINX") (MagicKey.ofString "MAXX")
    (MagicKey.ofString "STEX") (MagicKey.ofString "ENDX") h.axisX ++
  axisBlockBytes (MagicKey.ofString "AXIY") (MagicKey.ofString "NBOY")
    (MagicKey.ofString "MINY") (MagicKey.ofString "MAXY")
    (MagicKey.ofString "STEY") (MagicKey.ofString "ENDY") h.axisY ++
  axisBlockBytes (MagicKey.ofString "AXIZ") (MagicKey.ofString "NBOZ")
    (MagicKey.ofString "MINZ") (MagicKey.ofString "MAXZ")
    (MagicKey.ofString "STEZ") (MagicKey.ofString "ENDZ") h.axisZ

/-- writeData(destFile, data): writeBlockAndPayload of the "PHVS" block;
the size is data.size() * sizeof(float) and the payload is the float
buffer (bit patterns, four bytes each), with no padding needed. -/
def writeDataBytes (p : List Nat) : List Nat :=
  (BlockInfo.mk (MagicKey.ofString "PHVS") (p.length * 4)).bytes ++
  (p.map (natToBytes 4)).flatten

/-- writeFooter(destFile): the terminating "DONE" bookmark. -/
def writeFooterBytes : List Nat := (Bookmark (MagicKey.ofString "DONE")).bytes

/-- writeFile(destFile, data): header, data, footer. -/
def writeFileBytes (h : HeaderSettings) (p : List Nat) : List Nat :=
  writeHeaderBytes h ++ writeDataBytes p ++ writeFooterBytes

/-- The consumer-facing write(path, metadata, payload): setHeader (which
runs fixHeader) followed by writeFile. -/
def writeLibrary (m : HeaderSettings) (p : List Nat) :
    Except String (List Nat) := do
  let h ← fixHeader m
  pure (writeFileBytes h p)

/-- phot::VoxelizedChannelData<float>: dimensions and data offset cached
from the header, plus the still-open file. -/
structure VoxelizedChannelData where
  fNVoxels : Nat
  fNChannels : Nat
  fDataOffset : Nat
  fMetadata : HeaderSettings
  fileData : List Nat
deriving DecidableEq, Repr

/-- VoxelizedChannelData(fileName): readHeader, cache the metadata, the
dimensions and the data offset, keep the file open. -/
def openLibrary (data : List Nat) :
    Except String VoxelizedChannelData := do
  let (h, off) ← readHeader data
  pure ⟨h.nVoxels, h.nChannels, off, h, data⟩

/-- VoxelizedChannelData::getDataAt(voxel, channel): seek to
dataOffset + (voxel * nChannels + channel) * sizeof(float) and read one
scalar; a short read throws (here: none). -/
def VoxelizedChannelData.getDataAt (v : VoxelizedChannelData)
    (voxel channel : Nat) : Option Nat :=
  let pos := v.fDataOffset + (voxel * v.fNChannels + channel) * 4
  if pos + 4 ≤ v.fileData.length then
    some (bytesToNat ((v.fileData.drop pos).take 4))
  else none

/-- VoxelizedChannelData::getDataAt(voxel): read the nChannels scalars of
one voxel, starting at dataOffset + voxel * nChannels * sizeof(float). -/
def VoxelizedChannelData.getVoxelData (v : VoxelizedChannelData)
    (voxel : Nat) : Option (List Nat) :=
  let pos := v.fDataOffset + voxel * v.fNChannels * 4
  if pos + v.fNChannels * 4 ≤ v.fileData.length then
    some ((List.range v.fNChannels).map fun c =>
      bytesToNat ((v.fileData.drop (pos + 4 * c)).take 4))
  else none

/-- phot::BinaryFilePhotonLibrary: cached dimensions and the lookup-table
file (direct light only; the reflected table is a second instance). -/
structure BinaryFilePhotonLibrary where
  fNVoxels : Nat
  fNOpChannels : Nat
  fLookupTable : VoxelizedChannelData
deriving DecidableEq, Repr

/-- BinaryFilePhotonLibrary::getTableCount: bounds check against the
cached dimensions, then a single file read; out-of-range pairs yield 0
without touching the file. -/
def getTableCount (lib : BinaryFilePhotonLibrary) (voxel opChannel : Nat) :
    Except String Nat :=
  if voxel < lib.fNVoxels ∧ opChannel < lib.fNOpChannels then
    match lib.fLookupTable.getDataAt voxel opChannel with
    | some x => .ok x
    | none => .error "visibility data read error"
  else .ok 0

/-- BinaryFilePhotonLibrary::getTableCounts: a null result for an invalid
voxel, otherwise the full channel row read from the file. -/
def getTableCounts (lib : BinaryFilePhotonLibrary) (voxel : Nat) :
    Except String (Option (List Nat)) :=
  if voxel < lib.fNVoxels then
    match lib.fLookupTable.getVoxelData voxel with
    | some l => .ok (some l)
    | none => .error "visibility data read error"
  else .ok none

end photlib

namespace photlib

open fblock

/-- Whether an Except value is a success. -/
def isOk {α : Type} (e : Except String α) : Bool :=
  match e with
  | .ok _ => true
  | .error _ => false

/-- An axis of `n` steps whose three double fields are all +0.0 (bit
pattern 0): its recomputed upper bound is exactly its lower bound. -/
def zeroAxis (n : Nat) : AxisSpecs := ⟨n, 0, 0, 0⟩

/-- A metadata record with consistent counts and axes but version 0: the
writer accepts it (fixHeader never examines a non-placeholder version) and
the reader rejects the resulting file. -/
def headerV0 : HeaderSettings :=
  ⟨0, [], 1, 1, 1, zeroAxis 1, zeroAxis 1, zeroAxis 1⟩

/-- The same record with the latest format version. -/
def headerV1 : HeaderSettings := { headerV0 with version := 1 }

/-- The in-range side conditions of an axis record: the step count fits an
unsigned int and the three double patterns fit 64 bits. -/
def axisBounded (a : AxisSpecs) : Prop :=
  a.nSteps < 2 ^ 32 ∧ a.lower < 2 ^ 64 ∧ a.upper < 2 ^ 64 ∧ a.step < 2 ^ 64

/-- One-entry payload for the version-0 round-trip counterexample. -/
def payloadV0 : List Nat := [7]

/-- A header violating both count invariants: 5 entries for 2 voxels of 3
channels, and 2 voxels against a 1-step axis product. -/
def headerBadCounts : HeaderSettings :=
  ⟨1, [], 5, 3, 2, zeroAxis 1, zeroAxis 1, zeroAxis 1⟩

/-- A complete file whose header violates the count invariants while its
PHVS block holds exactly nEntries floats. -/
def fileBadCounts : List Nat := writeFileBytes headerBadCounts [1, 2, 3, 4, 5]

/-- The same header written with only 4 payload floats: the PHVS size
check (16 / 4 = 4 against NTRY = 5) fails. -/
def fileBadSize : List Nat := writeFileBytes headerBadCounts [1, 2, 3, 4]

/-- A header with consistent counts: 2 entries, 2 channels, 1 voxel. -/
def headerTwoEntries : HeaderSettings :=
  ⟨1, [], 2, 2, 1, zeroAxis 1, zeroAxis 1, zeroAxis 1⟩

/-- A file whose PHVS block size is 4 * nEntries + r: the header blocks,
then a PHVS block declaring `8 + r` bytes followed by its aligned payload
bytes, then DONE. -/
def fileOffSize (r : Nat) : List Nat :=
  writeHeaderBytes headerTwoEntries ++
  (BlockInfo.mk (MagicKey.ofString "PHVS") (8 + r)).bytes ++
  List.replicate (alignedSize (8 + r)) 0 ++ writeFooterBytes

/-- The two-entry file with NTRY corrupted to nEntries + 1 = 3. -/
def fileCorruptNtry : List Nat :=
  writeFileBytes { headerTwoEntries with nEntries := 3 } [1, 2]

/-- A header carrying the default-version placeholder, with consistent
counts (2 voxels = 2 * 1 * 1 steps, 6 entries = 2 * 3). -/
def headerPlaceholder : HeaderSettings :=
  ⟨DefaultFormatVersion, [], 6, 3, 2, zeroAxis 2, zeroAxis 1, zeroAxis 1⟩

/-- A header whose axis step product is 2^16 * 2^16 * 1 = 2^32: the
`unsigned int` accumulation wraps to 0, matching nVoxels = 0. -/
def headerOverflow : HeaderSettings :=
  ⟨1, [], 0, 7, 0, zeroAxis 65536, zeroAxis 65536, zeroAxis 1⟩

/-- A concrete lookup-table state: 2 voxels of 3 channels, data at offset
0, over a 24-byte file. -/
def tableSmall : VoxelizedChannelData :=
  ⟨2, 3, 0, headerV0, List.range 24⟩

/-- The photon library over the small table. -/
def librarySmall : BinaryFilePhotonLibrary := ⟨2, 3, tableSmall⟩

end photlib

namespace fblock

/-- Number<unsigned short>("NUM1", 1): the narrow-integer block of the
widening claim. -/
def narrowNumber : FileBlock := NumberBlock uint16 (MagicKey.ofString "NUM1") 1

/-- A block keyed "NTRY" whose stored size is 8, twice the size of the
stored type of Number<unsigned int>. -/
def oversizedNtry : FileBlock :=
  ⟨⟨MagicKey.ofString "NTRY", 8⟩, List.replicate 8 0⟩

/-- A 16-byte stream holding one complete 4-byte-payload block. -/
def streamOneBlock : ByteStream :=
  ⟨(FileBlock.mk ⟨MagicKey.ofString "TEST", 4⟩ [1, 2, 3, 4]).bytes, 0⟩

/-- An 8-byte stream holding one version block. -/
def streamOneVersion : ByteStream :=
  ⟨Version.bytes ⟨MagicKey.ofString "PLIB", 1⟩, 0⟩

/-- A truncated stream: a complete 12-byte header declaring 4 payload
bytes, followed by only 2 of them. -/
def streamTruncated : ByteStream :=
  ⟨(MagicKey.ofString "TEST").toBytes ++ natToBytes 8 4 ++ [1, 2], 0⟩

end fblock

/-! Supporting lemmas: byte encodings, key properties, stream reads of
appended data, and the per-block round trips they compose into. -/

namespace fblock

theorem natToBytes_length (n v : Nat) : (natToBytes n v).length = n := by
  induction n generalizing v with
  | zero => rfl
  | succ n ih => simp [natToBytes, ih]

theorem bytesToNat_natToBytes (n v : Nat) :
    bytesToNat (natToBytes n v) = v % 256 ^ n := by
  induction n generalizing v with
  | zero => simp [natToBytes, bytesToNat, Nat.mod_one]
  | succ n ih =>
    rw [natToBytes, bytesToNat, ih, pow_succ']
    rw [Nat.mod_mul]

theorem bytesToNat_natToBytes_of_lt (n v : Nat) (h : v < 256 ^ n) :
    bytesToNat (natToBytes n v) = v := by
  rw [bytesToNat_natToBytes, Nat.mod_eq_of_lt h]

theorem natToBytes_mod (n v : Nat) :
    natToBytes n (v % 256 ^ n) = natToBytes n v := by
  induction n generalizing v with
  | zero => rfl
  | succ n ih =>
    rw [natToBytes, natToBytes, List.cons.injEq]
    refine ⟨Nat.mod_mod_of_dvd v (dvd_pow_self 256 (Nat.succ_ne_zero n)), ?_⟩
    rw [pow_succ', Nat.mod_mul_right_div_self, ih]

theorem MagicKey.ofBytes_toBytes (k : MagicKey) :
    MagicKey.ofBytes k.toBytes = k := rfl

theorem MagicKey.keyEq_iff (a b : MagicKey) :
    MagicKey.keyEq a b = true ↔ a = b := by
  cases a; cases b
  simp [MagicKey.keyEq, MagicKey.mk.injEq, Bool.and_eq_true, and_assoc]

theorem readData_append (xs r : List Nat) (off n : Nat) (h : xs.length = n) :
    readData ⟨xs ++ r, off⟩ n = (xs, ⟨r, off + n⟩, true) := by
  subst h
  rw [readData]
  simp [List.take_left, List.drop_left]

theorem magicKey_read_append (k kk : MagicKey) (r : List Nat) (off : Nat) :
    MagicKey.read k ⟨kk.toBytes ++ r, off⟩ = (kk, ⟨r, off + 4⟩, true) := by
  rw [MagicKey.read, readData_append _ _ _ 4 (by cases kk; rfl)]
  cases kk
  rfl

theorem blockInfo_read_append (i j : BlockInfo) (r : List Nat) (off : Nat) :
    BlockInfo.read i ⟨j.bytes ++ r, off⟩ =
      (⟨j.key, j.size % 2 ^ 64⟩, ⟨r, off + 12⟩, true) := by
  rw [BlockInfo.read, BlockInfo.bytes, List.append_assoc, magicKey_read_append]
  dsimp only
  rw [readData_append _ _ _ 8 (natToBytes_length 8 j.size)]
  dsimp only
  rw [bytesToNat_natToBytes]
  norm_num [Nat.add_assoc]

theorem version_read_append (v w : Version) (r : List Nat) (off : Nat) :
    Version.read v ⟨w.bytes ++ r, off⟩ =
      (⟨w.key, w.version % 2 ^ 32⟩, ⟨r, off + 8⟩, true) := by
  rw [Version.read, Version.bytes, List.append_assoc, magicKey_read_append]
  dsimp only
  rw [readData_append _ _ _ 4 (natToBytes_length 4 w.version)]
  dsimp only
  rw [bytesToNat_natToBytes]
  norm_num [Nat.add_assoc]

theorem alignedSize_ge (s : Nat) : s ≤ alignedSize s := by
  rw [alignedSize, WordSize]
  split <;> omega

theorem add_paddingSize (s : Nat) : s + paddingSize s = alignedSize s := by
  have h := alignedSize_ge s
  rw [paddingSize]
  omega

theorem fileBlock_read_append (c b : FileBlock) (r : List Nat) (off : Nat)
    (hp : b.payload.length = b.header.size) (hs : b.header.size < 2 ^ 64) :
    FileBlock.read c ⟨b.bytes ++ r, off⟩ =
      (b, ⟨r, off + 12 + alignedSize b.header.size⟩, true) := by
  rw [FileBlock.read, FileBlock.bytes, List.append_assoc, List.append_assoc,
    blockInfo_read_append, Nat.mod_eq_of_lt hs]
  dsimp only
  rw [FileBlock.readPayload]
  dsimp only [FileBlock.allocate]
  rw [readData_append _ _ _ _ hp]
  dsimp only
  rw [wasteData]
  dsimp only
  rw [List.drop_left' (List.length_replicate _ (0 : Nat))]
  have h2 := add_paddingSize b.header.size
  have h3 : off + 12 + b.header.size + paddingSize b.header.size
      = off + 12 + alignedSize b.header.size := by omega
  rw [h3]

theorem MagicKey.keyEq_self (k : MagicKey) : MagicKey.keyEq k k = true :=
  (MagicKey.keyEq_iff k k).mpr rfl

theorem okBind {α β : Type} (a : α) (f : α → Except String β) :
    (Except.ok a >>= f) = f a := rfl

theorem okMap {α β : Type} (a : α) (f : α → β) :
    (f <$> (Except.ok a : Except String α)) = Except.ok (f a) := rfl

theorem alignedSize_zero : alignedSize 0 = 0 := rfl

theorem alignedSize_four : alignedSize 4 = 4 := rfl

theorem alignedSize_eight : alignedSize 8 = 8 := rfl

theorem readBlockAny_append (b : FileBlock) (r : List Nat) (off : Nat)
    (hp : b.payload.length = b.header.size) (hs : b.header.size < 2 ^ 64) :
    readBlockAny ⟨b.bytes ++ r, off⟩ =
      .ok (b, ⟨r, off + 12 + alignedSize b.header.size⟩) := by
  unfold readBlockAny
  rw [fileBlock_read_append _ _ _ _ hp hs]

theorem readBlockKeyed_append (key : MagicKey) (b : FileBlock)
    (r : List Nat) (off : Nat)
    (hp : b.payload.length = b.header.size) (hs : b.header.size < 2 ^ 64)
    (hk : b.header.key = key) :
    readBlockKeyed key ⟨b.bytes ++ r, off⟩ =
      .ok (b, ⟨r, off + 12 + alignedSize b.header.size⟩) := by
  subst hk
  unfold readBlockKeyed
  rw [readBlockAny_append _ _ _ hp hs, okBind]
  dsimp only
  rw [MagicKey.keyEq_self, if_pos rfl]
  rfl

theorem readVersionKeyed_append (key : MagicKey) (w : Version)
    (r : List Nat) (off : Nat) (hk : w.key = key) :
    readVersionKeyed key ⟨w.bytes ++ r, off⟩ =
      .ok (⟨w.key, w.version % 2 ^ 32⟩, ⟨r, off + 8⟩) := by
  subst hk
  unfold readVersionKeyed
  rw [version_read_append]
  dsimp only
  rw [MagicKey.keyEq_self, if_pos rfl]

theorem readBlockHeaderKeyed_append (key : MagicKey) (j : BlockInfo)
    (r : List Nat) (off : Nat) (hk : j.key = key) (hs : j.size < 2 ^ 64) :
    readBlockHeaderKeyed key ⟨j.bytes ++ r, off⟩ = .ok (j, ⟨r, off + 12⟩) := by
  subst hk
  unfold readBlockHeaderKeyed
  rw [blockInfo_read_append, Nat.mod_eq_of_lt hs]
  dsimp only
  rw [MagicKey.keyEq_self, if_pos rfl]

theorem NumberBlock_uint32_payload (k : MagicKey) (v : Nat) :
    (NumberBlock uint32 k (v : Int)).payload = natToBytes 4 (v : Nat) := by
  have hl := List.take_length (natToBytes 4 (v : Nat))
  rw [natToBytes_length] at hl
  rw [NumberBlock]
  show (intToBytes 4 (v : Int)).take 4 = _
  rw [intToBytes, ← Int.natCast_mod, Int.toNat_natCast, natToBytes_mod 4 v]
  exact hl

theorem NumberBlock_float64_payload (k : MagicKey) (v : Nat) :
    (NumberBlock float64 k (v : Int)).payload = natToBytes 8 (v : Nat) := by
  have hl := List.take_length (natToBytes 8 (v : Nat))
  rw [natToBytes_length] at hl
  rw [NumberBlock]
  show (intToBytes 8 (v : Int)).take 8 = _
  rw [intToBytes, ← Int.natCast_mod, Int.toNat_natCast, natToBytes_mod 8 v]
  exact hl

theorem NumberBlock_uint32_value (k : MagicKey) (v : Nat) (h : v < 2 ^ 32) :
    (NumberBlock uint32 k (v : Int)).numberValueU 4 = v := by
  have hl := List.take_length (natToBytes 4 (v : Nat))
  rw [natToBytes_length] at hl
  rw [FileBlock.numberValueU, NumberBlock_uint32_payload, hl]
  exact bytesToNat_natToBytes_of_lt 4 v (by norm_num at h ⊢; omega)

theorem NumberBlock_float64_value (k : MagicKey) (v : Nat) (h : v < 2 ^ 64) :
    (NumberBlock float64 k (v : Int)).numberValueU 8 = v := by
  have hl := List.take_length (natToBytes 8 (v : Nat))
  rw [natToBytes_length] at hl
  rw [FileBlock.numberValueU, NumberBlock_float64_payload, hl]
  exact bytesToNat_natToBytes_of_lt 8 v (by norm_num at h ⊢; omega)

theorem StringBlock_str (k : MagicKey) (s : List Nat) :
    (StringBlock k s).str = s := by
  rw [StringBlock, FileBlock.str]
  exact List.take_length s

theorem Bookmark_size (k : MagicKey) : (Bookmark k).header.size = 0 := rfl

theorem Bookmark_key (k : MagicKey) : (Bookmark k).header.key = k := rfl

theorem StringBlock_size (k : MagicKey) (s : List Nat) :
    (StringBlock k s).header.size = s.length := rfl

theorem StringBlock_key (k : MagicKey) (s : List Nat) :
    (StringBlock k s).header.key = k := rfl

theorem NumberBlock_size (T : CScalar) (k : MagicKey) (v : Int) :
    (NumberBlock T k v).header.size = T.size := rfl

theorem NumberBlock_key (T : CScalar) (k : MagicKey) (v : Int) :
    (NumberBlock T k v).header.key = k := rfl

theorem blockInfo_bytes_length (i : BlockInfo) : i.bytes.length = 12 := by
  rw [BlockInfo.bytes]
  simp [MagicKey.toBytes, natToBytes_length]

theorem version_bytes_length (v : Version) : v.bytes.length = 8 := by
  rw [Version.bytes]
  simp [MagicKey.toBytes, natToBytes_length]

theorem fileBlock_bytes_length (b : FileBlock)
    (hp : b.payload.length = b.header.size) :
    b.bytes.length = 12 + alignedSize b.header.size := by
  rw [FileBlock.bytes]
  simp only [List.length_append, List.length_replicate, blockInfo_bytes_length, hp]
  have h2 := add_paddingSize b.header.size
  omega

theorem Bookmark_wf (k : MagicKey) :
    (Bookmark k).payload.length = (Bookmark k).header.size := rfl

theorem StringBlock_wf (k : MagicKey) (s : List Nat) :
    (StringBlock k s).payload.length = (StringBlock k s).header.size := rfl

theorem NumberBlock_uint32_wf (k : MagicKey) (v : Nat) :
    (NumberBlock uint32 k (v : Int)).payload.length
      = (NumberBlock uint32 k (v : Int)).header.size := by
  rw [NumberBlock_uint32_payload, natToBytes_length]
  rfl

theorem NumberBlock_float64_wf (k : MagicKey) (v : Nat) :
    (NumberBlock float64 k (v : Int)).payload.length
      = (NumberBlock float64 k (v : Int)).header.size := by
  rw [NumberBlock_float64_payload, natToBytes_length]
  rfl

theorem Bookmark_bytes_length (k : MagicKey) : (Bookmark k).bytes.length = 12 := by
  rw [fileBlock_bytes_length _ (Bookmark_wf k)]
  rfl

theorem NumberBlock_uint32_bytes_length (k : MagicKey) (v : Nat) :
    (NumberBlock uint32 k (v : Int)).bytes.length = 16 := by
  rw [fileBlock_bytes_length _ (NumberBlock_uint32_wf k v), NumberBlock_size]
  rfl

theorem NumberBlock_float64_bytes_length (k : MagicKey) (v : Nat) :
    (NumberBlock float64 k (v : Int)).bytes.length = 20 := by
  rw [fileBlock_bytes_length _ (NumberBlock_float64_wf k v), NumberBlock_size]
  rfl

theorem StringBlock_bytes_length (k : MagicKey) (s : List Nat) :
    (StringBlock k s).bytes.length = 12 + alignedSize s.length := by
  rw [fileBlock_bytes_length _ (StringBlock_wf k s), StringBlock_size]

theorem flattenPayload_length (p : List Nat) :
    ((p.map (natToBytes 4)).flatten).length = p.length * 4 := by
  induction p with
  | nil => rfl
  | cons a p ih =>
    rw [List.map_cons, List.flatten_cons, List.length_append, ih,
      natToBytes_length, List.length_cons]
    ring

theorem flattenPayload_extract (p r : List Nat) (i : Nat) (hi : i < p.length) :
    (((p.map (natToBytes 4)).flatten ++ r).drop (i * 4)).take 4
      = natToBytes 4 (p.getD i 0) := by
  induction p generalizing i r with
  | nil => simp at hi
  | cons a p ih =>
    cases i with
    | zero =>
      rw [List.map_cons, List.flatten_cons, List.getD_cons_zero,
        Nat.zero_mul, List.drop_zero, List.append_assoc]
      exact List.take_left' (natToBytes_length 4 a)
    | succ i =>
      rw [List.map_cons, List.flatten_cons, List.append_assoc, List.getD_cons_succ]
      have h4 : (i + 1) * 4 = (natToBytes 4 a).length + i * 4 := by
        rw [natToBytes_length]; ring
      rw [h4, List.drop_append]
      exact ih _ _ (by simpa using hi)

theorem alignedSize_mul_four (n : Nat) : alignedSize (n * 4) = n * 4 := by
  rw [alignedSize, WordSize]
  simp [Nat.mul_mod_left]

theorem readData_off (s : ByteStream) (n : Nat) (bs : List Nat)
    (s' : ByteStream) (h : readData s n = (bs, s', true)) :
    s'.off = s.off + n := by
  unfold readData at h
  split at h
  · simp only [Prod.mk.injEq] at h
    rw [← h.2.1]
  · simp only [Prod.mk.injEq] at h
    exact absurd h.2.2 (by decide)

theorem magicKey_read_off (k kk : MagicKey) (s s' : ByteStream)
    (h : MagicKey.read k s = (kk, s', true)) : s'.off = s.off + 4 := by
  unfold MagicKey.read at h
  rcases hr : readData s 4 with ⟨bs, s1, ok⟩
  rw [hr] at h
  cases ok
  · simp only [Prod.mk.injEq] at h
    exact absurd h.2.2 (by decide)
  · simp only [Prod.mk.injEq] at h
    rw [← h.2.1]
    exact readData_off s 4 bs s1 hr

theorem blockInfo_read_off (i j : BlockInfo) (s s' : ByteStream)
    (h : BlockInfo.read i s = (j, s', true)) : s'.off = s.off + 12 := by
  unfold BlockInfo.read at h
  rcases hk : MagicKey.read i.key s with ⟨k1, s1, ok1⟩
  rw [hk] at h
  cases ok1
  · simp only [Prod.mk.injEq] at h
    exact absurd h.2.2 (by decide)
  · dsimp only at h
    rcases hr : readData s1 8 with ⟨bs, s2, ok2⟩
    rw [hr] at h
    cases ok2
    · simp only [Prod.mk.injEq] at h
      exact absurd h.2.2 (by decide)
    · simp only [Prod.mk.injEq] at h
      rw [← h.2.1, readData_off s1 8 bs s2 hr,
        magicKey_read_off i.key k1 s s1 hk]

theorem version_read_off (v w : Version) (s s' : ByteStream)
    (h : Version.read v s = (w, s', true)) : s'.off = s.off + 8 := by
  unfold Version.read at h
  rcases hk : MagicKey.read v.key s with ⟨k1, s1, ok1⟩
  rw [hk] at h
  cases ok1
  · simp only [Prod.mk.injEq] at h
    exact absurd h.2.2 (by decide)
  · dsimp only at h
    rcases hr : readData s1 4 with ⟨bs, s2, ok2⟩
    rw [hr] at h
    cases ok2
    · simp only [Prod.mk.injEq] at h
      exact absurd h.2.2 (by decide)
    · simp only [Prod.mk.injEq] at h
      rw [← h.2.1, readData_off s1 4 bs s2 hr,
        magicKey_read_off v.key k1 s s1 hk]

theorem BlockInfo.read_false (i j : BlockInfo) (s s' : ByteStream)
    (h : BlockInfo.read i s = (j, s', false)) : j = NullBlockInfo := by
  unfold BlockInfo.read at h
  rcases hk : MagicKey.read i.key s with ⟨k1, s1, ok1⟩
  rw [hk] at h
  cases ok1
  · simp only [Prod.mk.injEq] at h
    exact h.1.symm
  · dsimp only at h
    rcases hr : readData s1 8 with ⟨bs, s2, ok2⟩
    rw [hr] at h
    cases ok2
    · simp only [Prod.mk.injEq] at h
      exact h.1.symm
    · simp only [Prod.mk.injEq] at h
      exact absurd h.2.2 (by decide)

theorem FileBlock.allocate_length (b : FileBlock) :
    b.allocate.payload.length = b.header.size := by
  unfold FileBlock.allocate
  simp only [List.length_append, List.length_take, List.length_replicate]
  omega

theorem readData_false (s : ByteStream) (n : Nat) (bs : List Nat)
    (s' : ByteStream) (h : readData s n = (bs, s', false)) :
    bs = s.rem ∧ s.rem.length < n := by
  unfold readData at h
  split at h
  · simp only [Prod.mk.injEq] at h
    exact absurd h.2.2 (by decide)
  · simp only [Prod.mk.injEq] at h
    refine ⟨h.1.symm, by omega⟩

end fblock

namespace photlib

open fblock

theorem axisBlockBytes_length (kA kN kMin kMax kS kE : MagicKey)
    (a : AxisSpecs) :
    (axisBlockBytes kA kN kMin kMax kS kE a).length = 100 := by
  rw [axisBlockBytes]
  simp only [List.length_append, Bookmark_bytes_length,
    NumberBlock_uint32_bytes_length, NumberBlock_float64_bytes_length]

theorem writeHeaderBytes_length (h : HeaderSettings) :
    (writeHeaderBytes h).length = 368 + alignedSize h.configuration.length := by
  rw [writeHeaderBytes]
  simp only [List.length_append, version_bytes_length, StringBlock_bytes_length,
    NumberBlock_uint32_bytes_length, axisBlockBytes_length]
  omega

theorem readAxis_append (kA kN kMin kMax kS kE : MagicKey) (a : AxisSpecs)
    (r : List Nat) (off : Nat) (hb : axisBounded a) :
    readAxis kA kN kMin kMax kS kE
      ⟨axisBlockBytes kA kN kMin kMax kS kE a ++ r, off⟩ =
      .ok (a, ⟨r, off + 100⟩) := by
  obtain ⟨h1, h2, h3, h4⟩ := hb
  unfold readAxis axisBlockBytes
  simp only [List.append_assoc]
  rw [readBlockKeyed_append _ _ _ _ (Bookmark_wf kA)
    (by rw [Bookmark_size]; decide) (Bookmark_key kA), okBind]
  dsimp only
  rw [readBlockKeyed_append _ _ _ _ (NumberBlock_uint32_wf kN a.nSteps)
    (by rw [NumberBlock_size]; decide) (NumberBlock_key uint32 kN _), okBind]
  dsimp only
  rw [readBlockKeyed_append _ _ _ _ (NumberBlock_float64_wf kMin a.lower)
    (by rw [NumberBlock_size]; decide) (NumberBlock_key float64 kMin _), okBind]
  dsimp only
  rw [readBlockKeyed_append _ _ _ _ (NumberBlock_float64_wf kMax a.upper)
    (by rw [NumberBlock_size]; decide) (NumberBlock_key float64 kMax _), okBind]
  dsimp only
  rw [readBlockKeyed_append _ _ _ _ (NumberBlock_float64_wf kS a.step)
    (by rw [NumberBlock_size]; decide) (NumberBlock_key float64 kS _), okBind]
  dsimp only
  rw [readBlockKeyed_append _ _ _ _ (Bookmark_wf kE)
    (by rw [Bookmark_size]; decide) (Bookmark_key kE), okBind]
  dsimp only
  rw [NumberBlock_uint32_value kN a.nSteps h1,
    NumberBlock_float64_value kMin a.lower h2,
    NumberBlock_float64_value kMax a.upper h3,
    NumberBlock_float64_value kS a.step h4]
  simp only [Bookmark_size, NumberBlock_size]
  norm_num [uint32, float64, alignedSize_zero, alignedSize_four, alignedSize_eight]
  rw [(by omega : off + 12 + 12 + 4 + 12 + 8 + 12 + 8 + 12 + 8 + 12 = off + 100)]
  rfl

theorem readHeader_writeFileBytes (h : HeaderSettings) (p : List Nat)
    (hver : h.version = 1)
    (hcfg : h.configuration.length < 2 ^ 64)
    (hEb : h.nEntries < 2 ^ 32) (hCb : h.nChannels < 2 ^ 32)
    (hVb : h.nVoxels < 2 ^ 32)
    (hbx : axisBounded h.axisX) (hby : axisBounded h.axisY)
    (hbz : axisBounded h.axisZ)
    (hplen : p.length = h.nEntries) :
    readHeader (writeFileBytes h p) =
      .ok (h, 380 + alignedSize h.configuration.length) := by
  obtain ⟨hv, cfg, nE, nC, nV, aX, aY, aZ⟩ := h
  dsimp only at hver hcfg hEb hCb hVb hbx hby hbz hplen ⊢
  subst hver
  unfold readHeader writeFileBytes writeHeaderBytes writeDataBytes
    writeFooterBytes
  simp only [List.append_assoc]
  rw [readVersionKeyed_append _ _ _ _
    (show (Version.mk (MagicKey.ofString "PLIB") 1).key
      = MagicKey.ofString "PLIB" from rfl), okBind]
  dsimp only
  norm_num [LatestFormatVersion]
  rw [readBlockKeyed_append _ _ _ _ (StringBlock_wf _ cfg)
    (by rw [StringBlock_size]; exact hcfg)
    (StringBlock_key (MagicKey.ofString "CNFG") cfg), okBind]
  dsimp only
  rw [readBlockKeyed_append _ _ _ _ (NumberBlock_uint32_wf _ nE)
    (by rw [NumberBlock_size]; decide)
    (NumberBlock_key uint32 (MagicKey.ofString "NTRY") _), okBind]
  dsimp only
  rw [readBlockKeyed_append _ _ _ _ (NumberBlock_uint32_wf _ nC)
    (by rw [NumberBlock_size]; decide)
    (NumberBlock_key uint32 (MagicKey.ofString "NCHN") _), okBind]
  dsimp only
  rw [readBlockKeyed_append _ _ _ _ (NumberBlock_uint32_wf _ nV)
    (by rw [NumberBlock_size]; decide)
    (NumberBlock_key uint32 (MagicKey.ofString "NVXL") _), okBind]
  dsimp only
  rw [readAxis_append _ _ _ _ _ _ _ _ _ hbx, okBind]
  dsimp only
  rw [readAxis_append _ _ _ _ _ _ _ _ _ hby, okBind]
  dsimp only
  rw [readAxis_append _ _ _ _ _ _ _ _ _ hbz, okBind]
  dsimp only
  rw [readBlockHeaderKeyed_append _ (BlockInfo.mk (MagicKey.ofString "PHVS")
      (p.length * 4)) _ _ rfl
    (by rw [hplen]; norm_num at hEb ⊢; omega), okBind]
  dsimp only
  rw [StringBlock_str, NumberBlock_uint32_value _ nE hEb,
    NumberBlock_uint32_value _ nC hCb, NumberBlock_uint32_value _ nV hVb]
  rw [BlockInfo.sizeAs, Nat.mul_div_cancel _ (by norm_num : (0:Nat) < 4),
    hplen]
  rw [if_pos rfl]
  rw [BlockInfo.skipPayload, wasteData, alignedSize_mul_four]
  dsimp only
  rw [List.drop_left' (show ((p.map (natToBytes 4)).flatten).length = nE * 4
    from by rw [flattenPayload_length, hplen])]
  rw [(List.append_nil (Bookmark (MagicKey.ofString "DONE")).bytes).symm]
  rw [readBlockKeyed_append _ _ _ _ (Bookmark_wf _)
    (by rw [Bookmark_size]; decide)
    (Bookmark_key (MagicKey.ofString "DONE")), okMap]
  simp only [StringBlock_size, NumberBlock_size, uint32, alignedSize_four]
  simp only [Except.ok.injEq, Prod.mk.injEq]
  exact ⟨trivial, by omega⟩

theorem mod_mul_chain (sx sy sz n : Nat) :
    ((1 * sx % n) * sy % n) * sz % n = sx * sy * sz % n := by
  rw [one_mul, Nat.mod_mul_mod, Nat.mul_assoc, Nat.mod_mul_mod, ← Nat.mul_assoc]

theorem fixHeader_ok (h : HeaderSettings)
    (hver : h.version ≠ DefaultFormatVersion)
    (hE : h.nEntries = h.nVoxels * h.nChannels)
    (hV : h.nVoxels = h.axisX.nSteps * h.axisY.nSteps * h.axisZ.nSteps)
    (hVb : h.nVoxels < 2 ^ 32) (hEb : h.nEntries < 2 ^ 32)
    (hax : axisConsistent h.axisX = true)
    (hay : axisConsistent h.axisY = true)
    (haz : axisConsistent h.axisZ = true) :
    fixHeader h = .ok h := by
  unfold fixHeader
  rw [if_neg hver]
  dsimp only
  rw [hax, hay, haz]
  rw [if_neg (by decide : ¬(true = false))]
  rw [if_neg (by decide : ¬(true = false))]
  rw [if_neg (by decide : ¬(true = false))]
  have hn3 : ((1 * h.axisX.nSteps % U32) * h.axisY.nSteps % U32)
      * h.axisZ.nSteps % U32 = h.nVoxels := by
    rw [one_mul, Nat.mod_mul_mod, Nat.mul_assoc, Nat.mod_mul_mod,
      ← Nat.mul_assoc, ← hV]
    exact Nat.mod_eq_of_lt (by norm_num [U32] at hVb ⊢; exact hVb)
  rw [hn3, if_neg (by omega : ¬h.nVoxels ≠ h.nVoxels)]
  have hne : h.nVoxels * h.nChannels % U32 = h.nEntries := by
    rw [← hE]
    exact Nat.mod_eq_of_lt (by norm_num [U32] at hEb ⊢; exact hEb)
  rw [hne, if_neg (by omega : ¬h.nEntries ≠ h.nEntries)]

theorem openLibrary_writeFileBytes (h : HeaderSettings) (p : List Nat)
    (hver : h.version = 1)
    (hcfg : h.configuration.length < 2 ^ 64)
    (hEb : h.nEntries < 2 ^ 32) (hCb : h.nChannels < 2 ^ 32)
    (hVb : h.nVoxels < 2 ^ 32)
    (hbx : axisBounded h.axisX) (hby : axisBounded h.axisY)
    (hbz : axisBounded h.axisZ)
    (hplen : p.length = h.nEntries) :
    openLibrary (writeFileBytes h p) =
      .ok ⟨h.nVoxels, h.nChannels, 380 + alignedSize h.configuration.length,
           h, writeFileBytes h p⟩ := by
  unfold openLibrary
  rw [readHeader_writeFileBytes h p hver hcfg hEb hCb hVb hbx hby hbz hplen,
    okBind]
  rfl

theorem getDataAt_writeFileBytes (h : HeaderSettings) (p : List Nat)
    (hq : ∀ x ∈ p, x < 2 ^ 32) (i : Nat) (hi : i < p.length) :
    VoxelizedChannelData.getDataAt
      ⟨h.nVoxels, h.nChannels, 380 + alignedSize h.configuration.length,
       h, writeFileBytes h p⟩
      (i / h.nChannels) (i % h.nChannels) = some (p.getD i 0) := by
  have hHI : (writeHeaderBytes h
      ++ (BlockInfo.mk (MagicKey.ofString "PHVS") (p.length * 4)).bytes).length
      = 380 + alignedSize h.configuration.length := by
    rw [List.length_append, writeHeaderBytes_length, blockInfo_bytes_length]
    omega
  have hfile : writeFileBytes h p = (writeHeaderBytes h
      ++ (BlockInfo.mk (MagicKey.ofString "PHVS") (p.length * 4)).bytes)
      ++ ((p.map (natToBytes 4)).flatten ++ writeFooterBytes) := by
    unfold writeFileBytes writeDataBytes
    simp [List.append_assoc]
  have hidx : i / h.nChannels * h.nChannels + i % h.nChannels = i := by
    rw [Nat.mul_comm]
    exact Nat.div_add_mod i h.nChannels
  unfold VoxelizedChannelData.getDataAt
  dsimp only
  rw [hfile, hidx]
  have hlen : ((writeHeaderBytes h
      ++ (BlockInfo.mk (MagicKey.ofString "PHVS") (p.length * 4)).bytes)
      ++ ((p.map (natToBytes 4)).flatten ++ writeFooterBytes)).length
      = (380 + alignedSize h.configuration.length) + p.length * 4 + 12 := by
    rw [List.length_append, hHI, List.length_append, flattenPayload_length]
    rw [writeFooterBytes, Bookmark_bytes_length]
    omega
  rw [if_pos (by rw [hlen]; omega)]
  rw [show 380 + alignedSize h.configuration.length + i * 4
      = (writeHeaderBytes h
        ++ (BlockInfo.mk (MagicKey.ofString "PHVS") (p.length * 4)).bytes).length
        + i * 4 from by rw [hHI]]
  rw [List.drop_append, flattenPayload_extract p _ i hi]
  rw [bytesToNat_natToBytes_of_lt]
  have hmem : p.getD i 0 ∈ p := by
    rw [List.getD_eq_getElem p 0 hi]
    exact List.getElem_mem hi
  have := hq _ hmem
  norm_num at this ⊢
  omega

end photlib

/-! The claims.  Each theorem below settles one claim of the review; the
concrete inputs they are evaluated on are defined with the model above. -/

namespace fblock

/-- C7: evaluation of the Number<T> machinery on a narrow integral type
(unsigned short, 2 bytes).  Contrary to the claim, the written block's
payload size field is sizeof(T) = 2, not the 4-byte word; the stored
payload is the widened value truncated back to 2 bytes; and the read path
accepts a Number-keyed block whose stored size (8) differs from the size
of the stored type (4), performing no size verification at all. -/
theorem numberBlock_narrow_eval :
    narrowNumber.header.size = 2 ∧
    storedSize uint16 = 4 ∧
    narrowNumber.header.size ≠ storedSize uint16 ∧
    narrowNumber.payload = [1, 0] ∧
    photlib.isOk (readBlockKeyed (MagicKey.ofString "NTRY")
      ⟨oversizedNtry.bytes, 0⟩) = true ∧
    oversizedNtry.header.size ≠ storedSize uint32 := by
  refine ⟨rfl, rfl, by decide, by decide, by decide, by decide⟩

/-- C8: a successful FileBlock::read advances the cursor by exactly
12 + alignedSize(size) bytes, and a successful Version::read by exactly
8 bytes. -/
theorem read_advances_cursor :
    (∀ (c b : FileBlock) (s s' : ByteStream),
      FileBlock.read c s = (b, s', true) →
      s'.off = s.off + 12 + alignedSize b.header.size) ∧
    (∀ (w v : Version) (s s' : ByteStream),
      Version.read w s = (v, s', true) → s'.off = s.off + 8) := by
  constructor
  · intro c b s s' hread
    unfold FileBlock.read at hread
    rcases hh : BlockInfo.read c.header s with ⟨hdr, s1, ok⟩
    rw [hh] at hread
    cases ok
    · simp only [Prod.mk.injEq] at hread
      exact absurd hread.2.2 (by decide)
    · dsimp only at hread
      unfold FileBlock.readPayload at hread
      dsimp only [FileBlock.allocate] at hread
      rcases hp : readData s1 hdr.size with ⟨bs, s2, ok2⟩
      rw [hp] at hread
      cases ok2
      · simp only [Prod.mk.injEq] at hread
        exact absurd hread.2.2 (by decide)
      · simp only [Prod.mk.injEq] at hread
        obtain ⟨hb, hs', _⟩ := hread
        rw [← hs', ← hb]
        unfold wasteData
        dsimp only
        have h1 := blockInfo_read_off _ _ _ _ hh
        have h2 := readData_off _ _ _ _ hp
        have h3 := add_paddingSize hdr.size
        omega
  · intro w v s s' hread
    exact version_read_off w v s s' hread

/-- C8 witness: reading the one concrete 16-byte block of streamOneBlock
advances the cursor from 0 to 16 = 12 + alignedSize 4. -/
theorem read_advances_cursor_witness :
    (ByteStream.mk [] 16).off = streamOneBlock.off + 12
      + alignedSize (FileBlock.mk ⟨MagicKey.ofString "TEST", 4⟩
          [1, 2, 3, 4]).header.size :=
  read_advances_cursor.1 nullFileBlock
    (FileBlock.mk ⟨MagicKey.ofString "TEST", 4⟩ [1, 2, 3, 4])
    streamOneBlock (ByteStream.mk [] 16) (by decide)

/-- C9 counterexample: on streamTruncated the header read succeeds and
the payload read fails; the resulting object is not in the null state: it
keeps the parsed key "TEST", the parsed size 4, and a 4-byte payload. -/
theorem read_failure_keeps_header :
    (FileBlock.read nullFileBlock streamTruncated).2.2 = false ∧
    (FileBlock.read nullFileBlock streamTruncated).1.header.key ≠ NullKey ∧
    (FileBlock.read nullFileBlock streamTruncated).1.header.size ≠ 0 ∧
    (FileBlock.read nullFileBlock streamTruncated).1.payload ≠ [] := by
  refine ⟨by decide, by decide, by decide, by decide⟩

/-- C9 (amended): when the header read fails, FileBlock::read leaves the
null state (null key, zero size, empty payload); when the payload read
fails after a successful header read, the object keeps the parsed header
and a payload allocated to the declared size, with the bytes that could be
read in front; a failed Version::read resets to the default-constructed
version block (key "VERS", version 0), not to a null key. -/
theorem read_failure_states :
    (∀ (b : FileBlock) (s : ByteStream) (hdr : BlockInfo) (s1 : ByteStream),
      BlockInfo.read b.header s = (hdr, s1, false) →
      FileBlock.read b s = (⟨NullBlockInfo, []⟩, s1, false)) ∧
    (∀ (b : FileBlock) (s : ByteStream) (hdr : BlockInfo) (s1 : ByteStream)
       (b' : FileBlock) (s2 : ByteStream),
      BlockInfo.read b.header s = (hdr, s1, true) →
      FileBlock.readPayload ⟨hdr, b.payload⟩ s1 = (b', s2, false) →
      FileBlock.read b s = (b', s2, false) ∧ b'.header = hdr ∧
        b'.payload.length = hdr.size) ∧
    (∀ (w v : Version) (s s1 : ByteStream),
      Version.read w s = (v, s1, false) → v = defaultVersionBlock) := by
  refine ⟨?_, ?_, ?_⟩
  · intro b s hdr s1 hh
    have hnull := BlockInfo.read_false _ _ _ _ hh
    unfold FileBlock.read
    rw [hh]
    dsimp only
    rw [hnull]
  · intro b s hdr s1 b' s2 hh hpfail
    have hread : FileBlock.read b s = (b', s2, false) := by
      unfold FileBlock.read
      rw [hh]
      dsimp only
      exact hpfail
    refine ⟨hread, ?_, ?_⟩
    all_goals
      unfold FileBlock.readPayload at hpfail
      dsimp only [FileBlock.allocate] at hpfail
      rcases hp : readData s1 hdr.size with ⟨bs, s2', ok2⟩
      rw [hp] at hpfail
      cases ok2
    case _ =>
      simp only [Prod.mk.injEq] at hpfail
      exact hpfail.1.symm ▸ rfl
    case _ =>
      simp only [Prod.mk.injEq] at hpfail
      exact absurd hpfail.2.2 (by decide)
    case _ =>
      simp only [Prod.mk.injEq] at hpfail
      obtain ⟨hb', _, _⟩ := hpfail
      obtain ⟨hbs, hlt⟩ := readData_false _ _ _ _ hp
      have hlen : bs.length < hdr.size := by rw [hbs]; exact hlt
      rw [← hb']
      simp only [List.length_append, List.length_drop, List.length_take,
        List.length_replicate]
      omega
    case _ =>
      simp only [Prod.mk.injEq] at hpfail
      exact absurd hpfail.2.2 (by decide)
  · intro w v s s1 hread
    unfold Version.read at hread
    rcases hk : MagicKey.read w.key s with ⟨k1, s1', ok1⟩
    rw [hk] at hread
    cases ok1
    · simp only [Prod.mk.injEq] at hread
      exact hread.1.symm
    · dsimp only at hread
      rcases hr : readData s1' 4 with ⟨bs, s2, ok2⟩
      rw [hr] at hread
      cases ok2
      · simp only [Prod.mk.injEq] at hread
        exact hread.1.symm
      · simp only [Prod.mk.injEq] at hread
        exact absurd hread.2.2 (by decide)

/-- C9 witness: the amended statement evaluated on streamTruncated, whose
header parses ("TEST", size 4) and whose payload read fails after 2 of 4
bytes. -/
theorem read_failure_states_witness :
    FileBlock.read nullFileBlock streamTruncated
      = (⟨⟨MagicKey.ofString "TEST", 4⟩, [1, 2, 0, 0]⟩, ⟨[], 14⟩, false) ∧
    (FileBlock.mk ⟨MagicKey.ofString "TEST", 4⟩ [1, 2, 0, 0]).header
      = ⟨MagicKey.ofString "TEST", 4⟩ ∧
    (FileBlock.mk ⟨MagicKey.ofString "TEST", 4⟩ [1, 2, 0, 0]).payload.length
      = (BlockInfo.mk (MagicKey.ofString "TEST") 4).size :=
  read_failure_states.2.1 nullFileBlock streamTruncated
    ⟨MagicKey.ofString "TEST", 4⟩ ⟨[1, 2], 12⟩
    ⟨⟨MagicKey.ofString "TEST", 4⟩, [1, 2, 0, 0]⟩ ⟨[], 14⟩
    (by decide) (by decide)

/-- C10: a MagicKey built from a byte string keeps exactly the first four
bytes (longer sources are truncated, shorter ones NUL-padded); two keys
compare equal exactly when all four stored bytes agree; and the text
rendering is the stored bytes with the trailing NUL run removed, so keys
differing only in trailing NULs are unequal although their renderings can
collide with the rendering of the padded form. -/
theorem magicKey_semantics :
    (∀ s : List Nat, (MagicKey.ofBytes s).toBytes
      = s.take 4 ++ List.replicate (4 - s.length) 0) ∧
    (∀ a b : MagicKey, MagicKey.keyEq a b = true ↔ a.toBytes = b.toBytes) ∧
    (∀ k : MagicKey, k.toText = dropTrailingZeros k.toBytes) := by
  refine ⟨?_, ?_, ?_⟩
  · intro s
    rcases s with _ | ⟨a, _ | ⟨b, _ | ⟨c, _ | ⟨d, t⟩⟩⟩⟩ <;>
      simp [MagicKey.ofBytes, MagicKey.toBytes, List.getD_cons_zero,
        List.getD_cons_succ]
  · intro a b
    cases a
    cases b
    simp [MagicKey.keyEq, MagicKey.toBytes, MagicKey.mk.injEq, and_assoc]
  · intro k
    cases k with
    | mk a b c d =>
      unfold MagicKey.toText trailingNuls dropTrailingZeros MagicKey.toBytes
      cases hd : (d == 0) <;> cases hc : (c == 0) <;> cases hb : (b == 0) <;>
        cases ha : (a == 0) <;>
        simp [List.takeWhile, List.dropWhile, List.take, hd, hc, hb, ha]

end fblock

namespace photlib

open fblock

/-- C2: for every library state, an out-of-range voxel or channel makes
getTableCount return 0 without reading the file (the result is the same
for every file content), an out-of-range voxel makes getTableCounts return
the null result, and in-range pairs are served by a file read
(getDataAt). -/
theorem getTableCount_bounds :
    (∀ (lib : BinaryFilePhotonLibrary) (voxel opChannel : Nat),
      lib.fNVoxels ≤ voxel ∨ lib.fNOpChannels ≤ opChannel →
      getTableCount lib voxel opChannel = .ok 0 ∧
      ∀ d : List Nat,
        getTableCount ⟨lib.fNVoxels, lib.fNOpChannels,
          ⟨lib.fLookupTable.fNVoxels, lib.fLookupTable.fNChannels,
           lib.fLookupTable.fDataOffset, lib.fLookupTable.fMetadata, d⟩⟩
          voxel opChannel = .ok 0) ∧
    (∀ (lib : BinaryFilePhotonLibrary) (voxel : Nat),
      lib.fNVoxels ≤ voxel → getTableCounts lib voxel = .ok none) ∧
    (∀ (lib : BinaryFilePhotonLibrary) (voxel opChannel : Nat),
      voxel < lib.fNVoxels → opChannel < lib.fNOpChannels →
      getTableCount lib voxel opChannel =
        match lib.fLookupTable.getDataAt voxel opChannel with
        | some x => .ok x
        | none => .error "visibility data read error") := by
  refine ⟨?_, ?_, ?_⟩
  · intro lib voxel opChannel hout
    constructor
    · unfold getTableCount
      rw [if_neg (by omega)]
    · intro d
      unfold getTableCount
      rw [if_neg (by dsimp only; omega)]
  · intro lib voxel hout
    unfold getTableCounts
    rw [if_neg (by omega)]
  · intro lib voxel opChannel hv hc
    unfold getTableCount
    rw [if_pos ⟨hv, hc⟩]

/-- C2 witness: on the concrete 2-voxel, 3-channel library, voxel 2 is out
of range: the scalar lookup yields 0 and the row lookup yields the null
result. -/
theorem getTableCount_bounds_witness :
    getTableCount librarySmall 2 0 = .ok 0 ∧
    getTableCounts librarySmall 2 = .ok none :=
  ⟨(getTableCount_bounds.1 librarySmall 2 0 (Or.inl (by decide))).1,
   getTableCount_bounds.2.1 librarySmall 2 (by decide)⟩

end photlib

namespace photlib

open fblock

/-- The success condition of fixHeader on a header spelled out field by
field: the three axis checks pass and the two counts match the products
computed in unsigned int (mod 2^32) arithmetic. -/
theorem fixHeader_core_iff (v : Nat) (cfg : List Nat) (nE nC nV : Nat)
    (aX aY aZ : AxisSpecs) :
    isOk (fixHeader ⟨v, cfg, nE, nC, nV, aX, aY, aZ⟩) = true ↔
      (axisConsistent aX = true ∧ axisConsistent aY = true ∧
       axisConsistent aZ = true ∧
       aX.nSteps * aY.nSteps * aZ.nSteps % U32 = nV ∧
       nV * nC % U32 = nE) := by
  unfold fixHeader
  dsimp only
  by_cases hv : v = DefaultFormatVersion
  · rw [if_pos hv]
    dsimp only
    rw [mod_mul_chain]
    cases hax : axisConsistent aX
    · simp [isOk, hax]
    · cases hay : axisConsistent aY
      · simp [isOk, hax, hay]
      · cases haz : axisConsistent aZ
        · simp [isOk, hax, hay, haz]
        · by_cases hV : aX.nSteps * aY.nSteps * aZ.nSteps % U32 = nV
          · by_cases hE : nV * nC % U32 = nE
            · simp [isOk, hax, hay, haz, hV, hE]
            · simp [isOk, hax, hay, haz, hV, hE]
          · simp [isOk, hax, hay, haz, hV]
  · rw [if_neg hv]
    dsimp only
    rw [mod_mul_chain]
    cases hax : axisConsistent aX
    · simp [isOk, hax]
    · cases hay : axisConsistent aY
      · simp [isOk, hax, hay]
      · cases haz : axisConsistent aZ
        · simp [isOk, hax, hay, haz]
        · by_cases hV : aX.nSteps * aY.nSteps * aZ.nSteps % U32 = nV
          · by_cases hE : nV * nC % U32 = nE
            · simp [isOk, hax, hay, haz, hV, hE]
            · simp [isOk, hax, hay, haz, hV, hE]
          · simp [isOk, hax, hay, haz, hV]

/-- A successful fixHeader changes nothing but the version, and that only
when the input carries the default-version placeholder. -/
theorem fixHeader_result (h h' : HeaderSettings) (hok : fixHeader h = .ok h') :
    h' = if h.version = DefaultFormatVersion
      then { h with version := LatestFormatVersion } else h := by
  unfold fixHeader at hok
  by_cases hv : h.version = DefaultFormatVersion
  · rw [if_pos hv] at hok
    rw [if_pos hv]
    dsimp only at hok
    repeat' first
      | exact Except.noConfusion hok
      | split at hok
    injection hok with hh
    exact hh.symm
  · rw [if_neg hv] at hok
    rw [if_neg hv]
    dsimp only at hok
    repeat' first
      | exact Except.noConfusion hok
      | split at hok
    injection hok with hh
    exact hh.symm

/-- C5: fixHeader accepts a header exactly when all three axes pass the
tolerance check and the two counts match the products recomputed in
unsigned int arithmetic (mod 2^32), and a successful run returns the
header unchanged except that the default-version placeholder is replaced
by the latest format version.  This amends the claim: the products are
taken mod 2^32, so overflowing step counts can satisfy the check while
the true products differ from the stored counts. -/
theorem fixHeader_characterization :
    (∀ h : HeaderSettings, isOk (fixHeader h) = true ↔
      (axisConsistent h.axisX = true ∧ axisConsistent h.axisY = true ∧
       axisConsistent h.axisZ = true ∧
       h.axisX.nSteps * h.axisY.nSteps * h.axisZ.nSteps % U32 = h.nVoxels ∧
       h.nVoxels * h.nChannels % U32 = h.nEntries)) ∧
    (∀ h h' : HeaderSettings, fixHeader h = .ok h' →
      h' = if h.version = DefaultFormatVersion
        then { h with version := LatestFormatVersion } else h) := by
  constructor
  · intro h
    obtain ⟨v, cfg, nE, nC, nV, aX, aY, aZ⟩ := h
    exact fixHeader_core_iff v cfg nE nC nV aX aY aZ
  · intro h h' hok
    exact fixHeader_result h h' hok

/-- C5 witness: the placeholder header passes the characterization and
fixHeader substitutes the latest version for the placeholder. -/
theorem fixHeader_characterization_witness :
    isOk (fixHeader headerPlaceholder) = true ∧
    { headerPlaceholder with version := LatestFormatVersion } =
      (if headerPlaceholder.version = DefaultFormatVersion
        then { headerPlaceholder with version := LatestFormatVersion }
        else headerPlaceholder) :=
  ⟨(fixHeader_characterization.1 headerPlaceholder).mpr
      ⟨by decide, by decide, by decide, by decide, by decide⟩,
   fixHeader_characterization.2 headerPlaceholder
     { headerPlaceholder with version := LatestFormatVersion } (by rfl)⟩

/-- C5 counterexample: the axis step product of headerOverflow is 2^32,
which wraps to 0 in unsigned int arithmetic and so matches nVoxels = 0:
fixHeader accepts a header whose true step product differs from its voxel
count, against the claim that every such header is rejected. -/
theorem fixHeader_accepts_overflowed_product :
    isOk (fixHeader headerOverflow) = true ∧
    headerOverflow.axisX.nSteps * headerOverflow.axisY.nSteps *
      headerOverflow.axisZ.nSteps ≠ headerOverflow.nVoxels := by
  exact ⟨by decide, by decide⟩

end photlib

namespace photlib

open fblock

/-- C6: readHeader rejects every file whose PLIB version block holds 0 or
any value above 1 (the stored field is 4 bytes, so every storable version
is below 2^32), and accepts a well-formed file carrying version 1. -/
theorem readHeader_version_gate :
    (∀ (v : Nat) (rest : List Nat), v < 2 ^ 32 → v = 0 ∨ 1 < v →
      isOk (readHeader
        (Version.bytes ⟨MagicKey.ofString "PLIB", v⟩ ++ rest)) = false) ∧
    isOk (readHeader (fileOffSize 0)) = true := by
  constructor
  · intro v rest hv hcase
    unfold readHeader
    dsimp only
    rw [readVersionKeyed_append _ _ _ _
      (show (Version.mk (MagicKey.ofString "PLIB") v).key
        = MagicKey.ofString "PLIB" from rfl), okBind]
    dsimp only
    rw [Nat.mod_eq_of_lt hv]
    rcases hcase with h0 | h1
    · rw [if_pos h0]
      rfl
    · rw [if_neg (by omega), if_pos (by simp only [LatestFormatVersion]; omega)]
      rfl
  · decide

/-- C6 witness: a file whose PLIB version block holds 2 (and nothing
after it) is rejected. -/
theorem readHeader_version_gate_witness :
    isOk (readHeader
      (Version.bytes ⟨MagicKey.ofString "PLIB", 2⟩ ++ [])) = false :=
  readHeader_version_gate.1 2 [] (by decide) (Or.inr (by decide))

/-- C3 counterexample: fileBadCounts violates both count invariants
(nEntries 5 differs from nVoxels * nChannels = 6, and nVoxels 2 differs
from the axis step product 1), yet readHeader parses it successfully and
returns the inconsistent header: the reader checks no cross-field
invariant beyond the data-size test. -/
theorem reader_accepts_inconsistent_counts :
    readHeader fileBadCounts = .ok (headerBadCounts, 380) ∧
    headerBadCounts.nEntries ≠
      headerBadCounts.nVoxels * headerBadCounts.nChannels ∧
    headerBadCounts.nVoxels ≠
      headerBadCounts.axisX.nSteps * headerBadCounts.axisY.nSteps *
        headerBadCounts.axisZ.nSteps := by
  exact ⟨by rfl, by decide, by decide⟩

/-- C3 (amended): after parsing, the reader has checked only the
data-size invariant (the PHVS payload holds exactly nEntries four-byte
values); it never runs the count or axis checks of fixHeader, so a file
violating those invariants opens successfully while a file whose PHVS
size disagrees with NTRY is rejected. -/
theorem reader_checks_only_data_size :
    readHeader fileBadCounts = .ok (headerBadCounts, 380) ∧
    isOk (readHeader fileBadSize) = false := by
  exact ⟨by rfl, by decide⟩

/-- C4 counterexample: fileOffSize 1 declares a PHVS block of
8 + 1 = 9 bytes while nEntries * 4 = 8, yet readHeader accepts it: the
size check divides by 4 first, so sizes that differ from nEntries * 4 by
1 to 3 bytes pass. -/
theorem offSize_file_accepted :
    isOk (readHeader (fileOffSize 1)) = true ∧
    8 + 1 ≠ headerTwoEntries.nEntries * 4 := by
  exact ⟨by decide, by decide⟩

/-- C4 (amended): the data-size check compares PHVS.size / 4 with NTRY,
an integer division: the two-entry file is accepted with PHVS sizes 8, 9,
10 and 11, rejected at 12; the corrupted-NTRY file (NTRY = nEntries + 1)
is rejected as claimed. -/
theorem dataSize_check_integer_division :
    isOk (readHeader (fileOffSize 0)) = true ∧
    isOk (readHeader (fileOffSize 1)) = true ∧
    isOk (readHeader (fileOffSize 2)) = true ∧
    isOk (readHeader (fileOffSize 3)) = true ∧
    isOk (readHeader (fileOffSize 4)) = false ∧
    isOk (readHeader fileCorruptNtry) = false := by
  exact ⟨by decide, by decide, by decide, by decide, by decide, by decide⟩

end photlib

namespace photlib

open fblock

/-- C1 counterexample: headerV0 satisfies every validity condition the
claim lists (consistent counts, consistent axes, payload of nEntries
values), the writer accepts it — fixHeader never examines a
non-placeholder version — but the reader rejects the written file, since
its PLIB block holds version 0.  The round trip therefore fails for a
valid pair, against the claim that it holds for every one. -/
theorem roundTrip_fails_for_version0 :
    headerV0.nEntries = headerV0.nVoxels * headerV0.nChannels ∧
    headerV0.nVoxels = headerV0.axisX.nSteps * headerV0.axisY.nSteps *
      headerV0.axisZ.nSteps ∧
    axisConsistent headerV0.axisX = true ∧
    axisConsistent headerV0.axisY = true ∧
    axisConsistent headerV0.axisZ = true ∧
    payloadV0.length = headerV0.nEntries ∧
    writeLibrary headerV0 payloadV0 = .ok (writeFileBytes headerV0 payloadV0) ∧
    isOk (openLibrary (writeFileBytes headerV0 payloadV0)) = false := by
  exact ⟨by decide, by decide, by decide, by decide, by decide, by decide,
    by rfl, by decide⟩

/-- C1 (amended): the write-then-open round trip holds for every valid
pair whose metadata carries the latest format version (and whose fields
fit their stored widths): the writer emits the file unchanged, the reader
returns the same metadata, and every entry read back through
getDataAt(i / nChannels, i mod nChannels) is the written payload value. -/
theorem writeThenOpen_roundTrip (m : HeaderSettings) (p : List Nat)
    (hver : m.version = LatestFormatVersion)
    (hE : m.nEntries = m.nVoxels * m.nChannels)
    (hV : m.nVoxels = m.axisX.nSteps * m.axisY.nSteps * m.axisZ.nSteps)
    (hax : axisConsistent m.axisX = true)
    (hay : axisConsistent m.axisY = true)
    (haz : axisConsistent m.axisZ = true)
    (hcfg : m.configuration.length < 2 ^ 64)
    (hEb : m.nEntries < 2 ^ 32) (hCb : m.nChannels < 2 ^ 32)
    (hVb : m.nVoxels < 2 ^ 32)
    (hbx : axisBounded m.axisX) (hby : axisBounded m.axisY)
    (hbz : axisBounded m.axisZ)
    (hplen : p.length = m.nEntries)
    (hq : ∀ x ∈ p, x < 2 ^ 32) :
    writeLibrary m p = .ok (writeFileBytes m p) ∧
    ∃ lib, openLibrary (writeFileBytes m p) = .ok lib ∧
      lib.fMetadata = m ∧
      ∀ i, i < m.nEntries →
        lib.getDataAt (i / m.nChannels) (i % m.nChannels)
          = some (p.getD i 0) := by
  have hver1 : m.version = 1 := hver
  have hfix : fixHeader m = .ok m :=
    fixHeader_ok m (by rw [hver1]; decide) hE hV hVb hEb hax hay haz
  constructor
  · unfold writeLibrary
    rw [hfix, okBind]
    rfl
  · refine ⟨⟨m.nVoxels, m.nChannels,
      380 + alignedSize m.configuration.length, m, writeFileBytes m p⟩,
      ?_, rfl, ?_⟩
    · exact openLibrary_writeFileBytes m p hver1 hcfg hEb hCb hVb
        hbx hby hbz hplen
    · intro i hi
      exact getDataAt_writeFileBytes m p hq i (by rw [hplen]; exact hi)

/-- C1 witness: the round trip evaluated on the one-entry library with
the latest format version. -/
theorem writeThenOpen_roundTrip_witness :
    writeLibrary headerV1 payloadV0 = .ok (writeFileBytes headerV1 payloadV0) ∧
    ∃ lib, openLibrary (writeFileBytes headerV1 payloadV0) = .ok lib ∧
      lib.fMetadata = headerV1 ∧
      ∀ i, i < headerV1.nEntries →
        lib.getDataAt (i / headerV1.nChannels) (i % headerV1.nChannels)
          = some (payloadV0.getD i 0) :=
  writeThenOpen_roundTrip headerV1 payloadV0 (by decide) (by decide)
    (by decide) (by decide) (by decide) (by decide) (by decide) (by decide)
    (by decide) (by decide)
    ⟨by decide, by decide, by decide, by decide⟩
    ⟨by decide, by decide, by decide, by decide⟩
    ⟨by decide, by decide, by decide, by decide⟩
    (by decide) (by decide)

end photlib
